import Mathlib

/-!
Verification development for the rain-papa property-extraction scripts.

The definitions below are shallow embeddings of the Python sources:
* `src/originals/multi-extract.py` (`MultiPageExtractor`): table extraction,
  pagination loop, CSV saving;
* `src/enhanced_property_extractor.py` (`EnhancedPropertyExtractor`): page
  structure analysis, PAPA table extraction, duplicate removal, CSV export;
* `src/auto-extract.py` (`run_headless_extraction`): the headless pagination
  loop (same loop body as multi-extract) including interrupt handling.

Rendered DOM content (cell texts, link targets, aggregate text) is modelled as
explicit data; regular-expression searches of the enhanced extractor's
`_extract_papa_patterns` are modelled as an oracle parameter, since every claim
about that function is about its guard structure and holds for every behaviour
of the regex matcher.
-/

namespace RainPapa

/-- `listPre sub l` is true iff `sub` is an initial segment of `l`. -/
def listPre : List Char → List Char → Bool
  | [], _ => true
  | _ :: _, [] => false
  | a :: as, b :: bs => a == b && listPre as bs

/-- `listSub sub hay`: `sub` occurs contiguously inside `hay`. -/
def listSub (sub : List Char) : List Char → Bool
  | [] => listPre sub []
  | c :: rest => listPre sub (c :: rest) || listSub sub rest

/-- Python's `sub in hay` substring test on strings. -/
def containsSub (hay sub : String) : Bool :=
  listSub sub.data hay.data

/-- Python `str.isdigit()`: non-empty and every character a digit. -/
def pyIsDigit (s : String) : Bool :=
  !s.isEmpty && s.data.all Char.isDigit

/-- Python `str.isalpha()`: non-empty and every character a letter. -/
def pyIsAlpha (s : String) : Bool :=
  !s.isEmpty && s.data.all Char.isAlpha

/-- Strip leading and trailing whitespace from a character list. -/
def stripChars (l : List Char) : List Char :=
  ((l.dropWhile Char.isWhitespace).reverse.dropWhile Char.isWhitespace).reverse

/-- Python `str.strip()`. -/
def pyStrip (s : String) : String :=
  ⟨stripChars s.data⟩

/-- Python `str.lower()`. -/
def pyLower (s : String) : String :=
  ⟨s.data.map Char.toLower⟩

/-- Python `str.upper()`. -/
def pyUpper (s : String) : String :=
  ⟨s.data.map Char.toUpper⟩

/-- Python `c in s` membership of a single character. -/
def hasChar (s : String) (c : Char) : Bool :=
  s.data.any (fun d => d == c)

/-- Helper of `pySplitWs`: `acc` holds the current word reversed. -/
def splitWsAux : List Char → List Char → List String
  | [], acc => if acc.isEmpty then [] else [⟨acc.reverse⟩]
  | c :: cs, acc =>
    if c.isWhitespace then
      if acc.isEmpty then splitWsAux cs []
      else ⟨acc.reverse⟩ :: splitWsAux cs []
    else splitWsAux cs (c :: acc)

/-- Python `str.split()` with no argument: split on whitespace runs,
dropping empty words. -/
def pySplitWs (s : String) : List String :=
  splitWsAux s.data []

/-- Python `word[0].isupper()` (false on the empty string). -/
def firstUpper (w : String) : Bool :=
  match w.data with
  | [] => false
  | c :: _ => c.isUpper

/-- Decimal value of a digit string (callers guard with `pyIsDigit`). -/
def digitsToNat (s : String) : Nat :=
  s.data.foldl (fun n c => n * 10 + (c.toNat - 48)) 0

/-- Join string parts with `|` (Python `"|".join(parts)`). -/
def joinParts : List String → String
  | [] => ""
  | [x] => x
  | x :: xs => x ++ "|" ++ joinParts xs

/-- Python `str.replace(c, '')`: drop every occurrence of the character `c`. -/
def remChar (c : Char) (s : String) : String :=
  ⟨s.data.filter (fun d => d != c)⟩

/-- `anyKw kws s`: Python `any(k in s for k in kws)`. -/
def anyKw (kws : List String) (s : String) : Bool :=
  kws.any (fun k => containsSub s k)

/-- Street-suffix keyword list used by owner/address checks in
`multi-extract.py` (`['ST','AVE','BLVD','RD','LN','CT','DR','WAY','PL']`). -/
def streetKw9 : List String :=
  ["ST", "AVE", "BLVD", "RD", "LN", "CT", "DR", "WAY", "PL"]

/-- Shorter street-suffix list used by the municipality backfill check. -/
def streetKw7 : List String :=
  ["ST", "AVE", "BLVD", "RD", "LN", "CT", "DR"]

/-- City list used by the owner-name backfill check in `multi-extract.py`. -/
def cities7 : List String :=
  ["PALM BEACH", "WEST PALM", "BOCA", "DELRAY", "BOYNTON", "WELLINGTON", "JUPITER"]

/-- City list used by the municipality backfill check in `multi-extract.py`. -/
def cities5 : List String :=
  ["PALM BEACH", "WEST PALM", "BOCA", "DELRAY", "BOYNTON"]

/-- Month-abbreviation list used in the position-based sale-date check. -/
def monthsKw : List String :=
  ["jan", "feb", "mar", "apr", "may", "jun", "jul", "aug", "sep", "oct", "nov", "dec"]

/-- `PropertyRecord` dataclass of `src/originals/multi-extract.py`
(field order preserved; empty string means unknown). -/
structure MRecord where
  sale_price : String := ""
  sale_date : String := ""
  owner_name : String := ""
  property_address : String := ""
  municipality : String := ""
  square_footage : String := ""
  mail_address : String := ""
  mail_city_state_zip : String := ""
  homesteaded : String := ""
  parcel_number : String := ""
  property_value : String := ""
  lot_size : String := ""
  year_built : String := ""
  property_type : String := ""
  record_url : String := ""
  extraction_date : String := ""
  page_number : Nat := 0
  deriving DecidableEq, Repr

/-- The all-empty `PropertyRecord()` of multi-extract. -/
def blankM : MRecord := {}

/-- A rendered table row: header cell texts (`th`), data cell texts (`td`),
hyperlink targets of the row's `<a>` elements (href value, with an absent
attribute already folded to `""` as Python's `get_attribute(...) or ""` does),
and the row's aggregate visible text. -/
structure HRow where
  th : List String := []
  td : List String := []
  links : List String := []
  text : String := ""
  deriving DecidableEq, Repr

/-- A rendered table: its `<tr>` rows in document order. -/
structure HTable where
  rows : List HRow := []
  deriving DecidableEq, Repr

/-- Header detection of `extract_from_table` (multi-extract.py lines 300–309):
the `th` cells of the first row, falling back to its `td` cells; `none` when
the table is empty or the first row has no cells (`header_row = None`).
Header texts are stripped and lower-cased at collection time. -/
def headerOf (tbl : HTable) : Option (List String) :=
  match tbl.rows with
  | [] => none
  | r :: _ =>
    let hc := if r.th.isEmpty then r.td else r.th
    if hc.isEmpty then none else some (hc.map (fun c => pyLower (pyStrip c)))

/-- One step of the header-based mapping of `extract_from_table`
(lines 330–356): `h` is the lower-cased header text, `t` the stripped cell
text.  Assignments are unguarded, mirroring the Python `if/elif` chain. -/
def headerStep (h t : String) (r : MRecord) : MRecord :=
  if t = "" then r
  else if (containsSub h "sale" || containsSub h "price") ∧ hasChar t '$' then
    { r with sale_price := t }
  else if (containsSub h "sale" || containsSub h "date") ∧
      (hasChar t '/' || hasChar t '-') then
    { r with sale_date := t }
  else if anyKw ["owner", "name", "taxpayer"] h then { r with owner_name := t }
  else if anyKw ["address", "location", "property"] h then { r with property_address := t }
  else if anyKw ["municipality", "city"] h then { r with municipality := t }
  else if anyKw ["sq", "sqft", "footage"] h then { r with square_footage := t }
  else if anyKw ["mail", "mailing"] h ∧ containsSub h "address" then
    { r with mail_address := t }
  else if containsSub h "mail" ∧ anyKw ["city", "state", "zip"] h then
    { r with mail_city_state_zip := t }
  else if containsSub h "homestead" then { r with homesteaded := t }
  else if anyKw ["parcel", "account"] h then { r with parcel_number := t }
  else r

/-- Header-based mapping over `zip(header_row, cell_texts)`. -/
def headerAssign (pairs : List (String × String)) (r : MRecord) : MRecord :=
  pairs.foldl (fun acc p => headerStep p.1 p.2 acc) r

/-- One step of the position-based fallback of `extract_from_table`
(lines 358–390), for the cell at index `i` with stripped text `t`. -/
def positionStep (i : Nat) (t : String) (r : MRecord) : MRecord :=
  if t = "" then r
  else if i = 0 then
    if hasChar t '$' then { r with sale_price := t }
    else if t.data.any Char.isDigit then { r with parcel_number := t }
    else r
  else if i = 1 then
    if hasChar t '/' || hasChar t '-' || anyKw monthsKw (pyLower t) then
      { r with sale_date := t }
    else if hasChar t '$' ∧ r.sale_price = "" then { r with sale_price := t }
    else r
  else if i = 2 then
    if t.length > 3 ∧ ¬pyIsDigit (remChar '.' (remChar ',' (remChar ' ' t))) ∧
        ¬anyKw streetKw9 (pyUpper t) then
      { r with owner_name := t }
    else r
  else if i = 3 then
    if anyKw streetKw9 (pyUpper t) then { r with property_address := t } else r
  else if i = 4 then
    if t.length > 2 ∧ pyIsAlpha (remChar ' ' t) then { r with municipality := t } else r
  else if i = 5 then
    if pyIsDigit (remChar '.' (remChar ',' t)) then { r with square_footage := t } else r
  else r

/-- Position-based fallback mapping over the enumerated cell texts. -/
def positionAssign (cellTexts : List String) (r : MRecord) : MRecord :=
  cellTexts.enum.foldl (fun acc p => positionStep p.1 p.2 acc) r

/-- One step of the pattern-based backfill pass of `extract_from_table`
(lines 392–433), for one stripped cell text `t`.  The square-footage branch
evaluates `int(text.replace(',', ''))` inside its guard; when the text passes
the digit check but still contains a dot that conversion raises `ValueError`,
modelled by the `.error` result (the Python exception aborts the whole row
loop and is caught at line 459). -/
def backfillStep (t : String) (r : MRecord) : Except String MRecord :=
  if t = "" then .ok r
  else if hasChar t '$' ∧ r.sale_price = "" then .ok { r with sale_price := t }
  else if r.owner_name = "" ∧ t.length > 3 ∧ ¬hasChar t '$' ∧
      ¬pyIsDigit (remChar '.' (remChar ',' t)) ∧ ¬anyKw streetKw9 (pyUpper t) ∧
      ¬anyKw cities7 (pyUpper t) then
    if (pySplitWs t).length ≥ 1 ∧
        (pySplitWs t).all (fun w => pyIsAlpha (remChar '.' (remChar ',' w))) ∧
        (pySplitWs t).any (fun w => firstUpper w) then
      .ok { r with owner_name := pyStrip t }
    else .ok r
  else if anyKw streetKw9 (pyUpper t) ∧ r.property_address = "" then
    .ok { r with property_address := t }
  else if pyIsAlpha (remChar '-' (remChar ' ' t)) ∧ t.length > 2 ∧ r.municipality = "" ∧
      t ≠ r.owner_name ∧ ¬anyKw streetKw7 (pyUpper t) then
    if hasChar t ' ' || anyKw cities5 (pyUpper t) then .ok { r with municipality := t }
    else .ok r
  else if pyIsDigit (remChar '.' (remChar ',' t)) then
    if hasChar t '.' then .error "ValueError: invalid literal for int()"
    else
      if 500 ≤ digitsToNat (remChar ',' t) ∧ digitsToNat (remChar ',' t) ≤ 50000 ∧
          r.square_footage = "" then
        .ok { r with square_footage := t }
      else .ok r
  else .ok r

/-- The backfill pass folded over all cell texts of a row. -/
def backfillCells : List String → MRecord → Except String MRecord
  | [], r => .ok r
  | t :: ts, r =>
    match backfillStep t r with
    | .error e => .error e
    | .ok r' => backfillCells ts r'

/-- First-link assignment (`record.record_url = links[0]...`, lines 436–438). -/
def linkAssign (links : List String) (r : MRecord) : MRecord :=
  match links with
  | [] => r
  | l :: _ => { r with record_url := l }

/-- Retention check of `extract_from_table` (lines 449–452): the record is
kept iff at least one of sale price, property address, owner name,
municipality, parcel number is non-empty. -/
def retainedM (r : MRecord) : Bool :=
  !(r.sale_price == "") || !(r.property_address == "") || !(r.owner_name == "") ||
    !(r.municipality == "") || !(r.parcel_number == "")

/-- Building one record from one data row of `extract_from_table`:
header-based or position-based mapping, then the backfill pass, then the
first-link assignment. -/
def processRowM (hdr : Option (List String)) (now : String) (page : Nat) (row : HRow) :
    Except String MRecord :=
  let cellTexts := row.td.map pyStrip
  let base : MRecord := { blankM with page_number := page, extraction_date := now }
  let mapped :=
    match hdr with
    | some hs => headerAssign (hs.zip cellTexts) base
    | none => positionAssign cellTexts base
  match backfillCells cellTexts mapped with
  | .error e => .error e
  | .ok filled => .ok (linkAssign row.links filled)

/-- The data-row loop of `extract_from_table`: rows with fewer than 3 cells are
skipped; a raised exception aborts the loop, keeping the records accumulated
so far (the surrounding `except` returns the partial list); a built record is
appended only when `retainedM` holds. -/
def processRowsM (hdr : Option (List String)) (now : String) (page : Nat) :
    List HRow → List MRecord
  | [] => []
  | row :: rest =>
    if row.td.length < 3 then processRowsM hdr now page rest
    else
      match processRowM hdr now page row with
      | .error _ => []
      | .ok built =>
        if retainedM built then built :: processRowsM hdr now page rest
        else processRowsM hdr now page rest

/-- `MultiPageExtractor.extract_from_table` (multi-extract.py lines 293–463):
`now` is the extraction timestamp, `page` the current page number. -/
def extractFromTableM (now : String) (tbl : HTable) (page : Nat) : List MRecord :=
  let hdr := headerOf tbl
  let dataRows := if tbl.rows.length > 1 then tbl.rows.drop 1 else tbl.rows
  processRowsM hdr now page dataRows

/-- Whitespace-run collapse: the effect of `re.sub(r'\s+', ' ', text)`. -/
def collapseWs : List Char → List Char
  | [] => []
  | c :: cs =>
    let rest := collapseWs cs
    if c.isWhitespace then
      match rest with
      | ' ' :: _ => rest
      | _ => ' ' :: rest
    else c :: rest

/-- Character class of `re.sub(r'^[:\-\s]+|[:\-\s]+$', '', text)`. -/
def isTrimPunct (c : Char) : Bool :=
  c == ':' || c == '-' || c.isWhitespace

/-- Remove leading and trailing `:`/`-`/whitespace characters. -/
def trimPunct (l : List Char) : List Char :=
  ((l.dropWhile isTrimPunct).reverse.dropWhile isTrimPunct).reverse

/-- Scanner for `fixCurrency`.  `afterDollar` is set when the last emitted
character was a dollar sign that may still start a `\$\s*(\d)` match;
`pend` holds (reversed) the whitespace seen since that dollar sign, which is
dropped when a digit follows and flushed otherwise. -/
def fixCurrencyGo : Bool → List Char → List Char → List Char
  | _, pend, [] => pend.reverse
  | afterDollar, pend, c :: rest =>
    if afterDollar ∧ c.isWhitespace then fixCurrencyGo true (c :: pend) rest
    else if afterDollar ∧ c.isDigit then c :: fixCurrencyGo false [] rest
    else
      pend.reverse ++
        (if c == '$' then '$' :: fixCurrencyGo true [] rest
         else c :: fixCurrencyGo false [] rest)

/-- The effect of `re.sub(r'\$\s*(\d)', r'$\1', text)`: delete whitespace
standing between a dollar sign and a following digit. -/
def fixCurrency (l : List Char) : List Char :=
  fixCurrencyGo false [] l

/-- `_clean_papa_text` (enhanced_property_extractor.py lines 378–390):
strip and collapse whitespace runs, remove leading/trailing `:`/`-`/
whitespace, and fix `$ 123` to `$123`. -/
def cleanPapaText (s : String) : String :=
  ⟨fixCurrency (trimPunct (collapseWs (stripChars s.data)))⟩

/-- The enhanced `PropertyRecord` dataclass of
`src/enhanced_property_extractor.py` (field order preserved). -/
structure ERecord where
  parcel_number : String := ""
  property_address : String := ""
  owner_name : String := ""
  sale_price : String := ""
  sale_date : String := ""
  property_value : String := ""
  assessed_value : String := ""
  market_value : String := ""
  taxable_value : String := ""
  square_footage : String := ""
  lot_size : String := ""
  acres : String := ""
  municipality : String := ""
  zoning : String := ""
  mail_address : String := ""
  mail_city_state_zip : String := ""
  homesteaded : String := ""
  property_type : String := ""
  property_use : String := ""
  account_number : String := ""
  folio_number : String := ""
  deed_book : String := ""
  year_built : String := ""
  bedrooms : String := ""
  bathrooms : String := ""
  half_baths : String := ""
  neighborhood : String := ""
  subdivision : String := ""
  land_use_code : String := ""
  building_class : String := ""
  tax_amount : String := ""
  exemption_amount : String := ""
  school_district : String := ""
  additional_info : String := ""
  record_url : String := ""
  extraction_date : String := ""
  deriving DecidableEq, Repr

/-- The all-empty enhanced `PropertyRecord()`. -/
def blankE : ERecord := {}

/-- The canonical fields mappable by `_create_papa_column_mapping`, in the
insertion order of the Python `papa_field_keywords` dict. -/
inductive EField
  | property_address | owner_name | mail_address | mail_city_state_zip
  | property_value | assessed_value | market_value | taxable_value
  | square_footage | lot_size | acres | parcel_number | account_number
  | folio_number | sale_price | sale_date | year_built | property_type
  | property_use | municipality | neighborhood | subdivision | zoning
  | land_use_code | building_class | bedrooms | bathrooms | half_baths
  | tax_amount | homesteaded | exemption_amount
  deriving DecidableEq, Repr

/-- `setattr(record, field, value)` for the mappable fields. -/
def setEField (f : EField) (v : String) (r : ERecord) : ERecord :=
  match f with
  | .property_address => { r with property_address := v }
  | .owner_name => { r with owner_name := v }
  | .mail_address => { r with mail_address := v }
  | .mail_city_state_zip => { r with mail_city_state_zip := v }
  | .property_value => { r with property_value := v }
  | .assessed_value => { r with assessed_value := v }
  | .market_value => { r with market_value := v }
  | .taxable_value => { r with taxable_value := v }
  | .square_footage => { r with square_footage := v }
  | .lot_size => { r with lot_size := v }
  | .acres => { r with acres := v }
  | .parcel_number => { r with parcel_number := v }
  | .account_number => { r with account_number := v }
  | .folio_number => { r with folio_number := v }
  | .sale_price => { r with sale_price := v }
  | .sale_date => { r with sale_date := v }
  | .year_built => { r with year_built := v }
  | .property_type => { r with property_type := v }
  | .property_use => { r with property_use := v }
  | .municipality => { r with municipality := v }
  | .neighborhood => { r with neighborhood := v }
  | .subdivision => { r with subdivision := v }
  | .zoning => { r with zoning := v }
  | .land_use_code => { r with land_use_code := v }
  | .building_class => { r with building_class := v }
  | .bedrooms => { r with bedrooms := v }
  | .bathrooms => { r with bathrooms := v }
  | .half_baths => { r with half_baths := v }
  | .tax_amount => { r with tax_amount := v }
  | .homesteaded => { r with homesteaded := v }
  | .exemption_amount => { r with exemption_amount := v }

/-- The `papa_field_keywords` table of `_create_papa_column_mapping`
(enhanced_property_extractor.py lines 335–367), in dict insertion order. -/
def papaFieldKeywords : List (EField × List String) :=
  [(.property_address, ["address", "location", "street", "site address", "property location", "situs"]),
   (.owner_name, ["owner", "name", "taxpayer", "owner name", "taxpayer name"]),
   (.mail_address, ["mailing", "mail", "mailing address", "owner address"]),
   (.mail_city_state_zip, ["mail city", "mail state", "mail zip", "city state zip", "owner city"]),
   (.property_value, ["just value", "market value", "assessed", "assessment", "total value"]),
   (.assessed_value, ["assessed", "assessed value", "assessment"]),
   (.market_value, ["market", "market value", "fair market"]),
   (.taxable_value, ["taxable", "taxable value", "net taxable"]),
   (.square_footage, ["sqft", "sq ft", "square", "footage", "building area", "living area"]),
   (.lot_size, ["lot", "land", "lot size", "lot sqft", "land sqft", "lot area"]),
   (.acres, ["acres", "acreage", "acre"]),
   (.parcel_number, ["parcel", "pcn", "parcel id", "parcel number"]),
   (.account_number, ["account", "account number", "acct"]),
   (.folio_number, ["folio", "folio number"]),
   (.sale_price, ["sale", "sold", "price", "sale price", "last sale"]),
   (.sale_date, ["date", "sold date", "sale date", "last sale date"]),
   (.year_built, ["year built", "built", "construction", "year constructed"]),
   (.property_type, ["type", "property type", "class"]),
   (.property_use, ["use", "land use", "property use"]),
   (.municipality, ["city", "municipality", "jurisdiction"]),
   (.neighborhood, ["neighborhood", "district", "area"]),
   (.subdivision, ["subdivision", "subdiv", "plat"]),
   (.zoning, ["zone", "zoning"]),
   (.land_use_code, ["land use", "use code", "luc"]),
   (.building_class, ["class", "building class", "bldg class"]),
   (.bedrooms, ["bed", "br", "bedroom", "bedrooms"]),
   (.bathrooms, ["bath", "bathroom", "ba", "full bath"]),
   (.half_baths, ["half bath", "half", "powder"]),
   (.tax_amount, ["tax", "taxes", "tax amount", "annual tax"]),
   (.homesteaded, ["homestead", "homestead exempt", "homesteaded"]),
   (.exemption_amount, ["exempt", "exemption", "exempt amount"])]

/-- `_create_papa_column_mapping`: each column is bound to the first field in
`papaFieldKeywords` order with a keyword occurring in the lower-cased header
text; columns matching no field stay unmapped. -/
def papaColumnMapping (headers : List String) : List (Option EField) :=
  headers.map (fun h =>
    (papaFieldKeywords.find? (fun fk => fk.2.any (fun k => containsSub (pyLower h) k))).map
      Prod.fst)

/-- Oracle for the `re.search` calls of `_extract_papa_patterns`
(enhanced_property_extractor.py lines 392–503).  Each component returns the
captured group of the first pattern in the corresponding pattern list that
matches the given text, or `none` when no pattern matches. -/
structure EOracle where
  addrM : String → Option String
  parcelM : String → Option String
  valueM : String → Option String
  acresM : String → Option String
  mailM : String → Option String
  homeM : String → Option String
  lotM : String → Option String

/-- Address block of `_extract_papa_patterns` (lines 395–406).  Every block
of the pattern pass is guarded by the target field being still empty. -/
def papaAddr (o : EOracle) (text : String) (r : ERecord) : ERecord :=
  if r.property_address = "" then
    match o.addrM text with
    | some g => { r with property_address := pyStrip g }
    | none => r
  else r

/-- Parcel-number block of `_extract_papa_patterns` (lines 408–420). -/
def papaParcel (o : EOracle) (text : String) (r : ERecord) : ERecord :=
  if r.parcel_number = "" then
    match o.parcelM text with
    | some g => { r with parcel_number := g }
    | none => r
  else r

/-- Value block of `_extract_papa_patterns` (lines 422–434). -/
def papaValue (o : EOracle) (text : String) (r : ERecord) : ERecord :=
  if r.property_value = "" then
    match o.valueM text with
    | some g => { r with property_value := "$" ++ g }
    | none => r
  else r

/-- Municipality block of `_extract_papa_patterns` (lines 436–439). -/
def papaMuni (text : String) (r : ERecord) : ERecord :=
  if r.municipality = "" then
    if containsSub (pyLower text) "palm beach" then { r with municipality := "Palm Beach" }
    else r
  else r

/-- Acres block of `_extract_papa_patterns` (lines 441–453). -/
def papaAcres (o : EOracle) (text : String) (r : ERecord) : ERecord :=
  if r.acres = "" then
    match o.acresM text with
    | some g => { r with acres := g }
    | none => r
  else r

/-- Mail-city-state-zip block of `_extract_papa_patterns` (lines 455–467). -/
def papaMail (o : EOracle) (text : String) (r : ERecord) : ERecord :=
  if r.mail_city_state_zip = "" then
    match o.mailM text with
    | some g => { r with mail_city_state_zip := pyStrip g }
    | none => r
  else r

/-- Homestead block of `_extract_papa_patterns` (lines 469–489). -/
def papaHome (o : EOracle) (text : String) (r : ERecord) : ERecord :=
  if r.homesteaded = "" then
    match o.homeM text with
    | some g =>
      if pyUpper g = "YES" ∨ pyUpper g = "Y" ∨ pyUpper g = "HOMESTEAD EXEMPTION" then
        { r with homesteaded := "Yes" }
      else if pyUpper g = "NO" ∨ pyUpper g = "N" then { r with homesteaded := "No" }
      else { r with homesteaded := pyUpper g }
    | none => r
  else r

/-- Lot-size block of `_extract_papa_patterns` (lines 491–503). -/
def papaLot (o : EOracle) (text : String) (r : ERecord) : ERecord :=
  if r.lot_size = "" then
    match o.lotM text with
    | some g => { r with lot_size := g }
    | none => r
  else r

/-- `_extract_papa_patterns` (lines 392–503): the eight guarded blocks in
source order. -/
def papaPatterns (o : EOracle) (text : String) (r : ERecord) : ERecord :=
  papaLot o text (papaHome o text (papaMail o text (papaAcres o text
    (papaMuni text (papaValue o text (papaParcel o text (papaAddr o text r)))))))

/-- Cell loop of `extract_from_papa_table` (lines 297–302): a cell is mapped
only while its column index is below the header count, through the column
mapping, with `_clean_papa_text` applied to the cell text. -/
def papaCellAssign (mapping : List (Option EField)) (numHeaders : Nat)
    (cells : List String) (r : ERecord) : ERecord :=
  cells.enum.foldl (fun acc p =>
    if p.1 < numHeaders then
      match mapping.getD p.1 none with
      | some f => setEField f (cleanPapaText p.2) acc
      | none => acc
    else acc) r

/-- First-link assignment for enhanced records (lines 305–307). -/
def linkAssignE (links : List String) (r : ERecord) : ERecord :=
  match links with
  | [] => r
  | l :: _ => { r with record_url := l }

/-- Retention check of `extract_from_papa_table` (lines 313–315): kept iff at
least one of property address, owner name, parcel number is non-empty. -/
def retainedE (r : ERecord) : Bool :=
  !(r.property_address == "") || !(r.owner_name == "") || !(r.parcel_number == "")

/-- Building one record from one data row of `extract_from_papa_table`
(lines 293–311): column mapping over the cells, then the first link, then the
regex backfill over the row's aggregate text. -/
def buildRowE (o : EOracle) (mapping : List (Option EField)) (numHeaders : Nat)
    (now : String) (row : HRow) : ERecord :=
  papaPatterns o row.text
    (linkAssignE row.links
      (papaCellAssign mapping numHeaders row.td { blankE with extraction_date := now }))

/-- Data-row loop of `extract_from_papa_table` (lines 287–322): rows without
`td` cells are skipped; retention filter last. -/
def processRowsE (o : EOracle) (mapping : List (Option EField)) (numHeaders : Nat)
    (now : String) : List HRow → List ERecord
  | [] => []
  | row :: rest =>
    if row.td.isEmpty then processRowsE o mapping numHeaders now rest
    else
      if retainedE (buildRowE o mapping numHeaders now row) then
        buildRowE o mapping numHeaders now row :: processRowsE o mapping numHeaders now rest
      else processRowsE o mapping numHeaders now rest

/-- `EnhancedPropertyExtractor.extract_from_papa_table`
(enhanced_property_extractor.py lines 261–329). -/
def extractFromPapaTable (o : EOracle) (now : String) (tbl : HTable) : List ERecord :=
  if tbl.rows.length < 2 then []
  else
    let headers :=
      match tbl.rows with
      | [] => []
      | r :: _ => (if r.th.isEmpty then r.td else r.th).map (fun c => pyLower (pyStrip c))
    let mapping := papaColumnMapping headers
    processRowsE o mapping headers.length now (tbl.rows.drop 1)

/-- Dedup key parts of `_remove_duplicates` (lines 603–607):
`[addr.lower().strip(), parcel.strip(), owner.lower().strip()]`. -/
def keyPartsE (r : ERecord) : List String :=
  [pyStrip (pyLower r.property_address), pyStrip r.parcel_number, pyStrip (pyLower r.owner_name)]

/-- The dedup key: the parts joined by `|`. -/
def dedupKeyE (r : ERecord) : String :=
  joinParts (keyPartsE r)

/-- Python `any(key_parts)`: at least one part non-empty. -/
def hasNonEmptyKey (r : ERecord) : Bool :=
  (keyPartsE r).any (fun s => !(s == ""))

/-- The loop of `_remove_duplicates` with its `seen` key set. -/
def removeDuplicatesAux (seen : List String) : List ERecord → List ERecord
  | [] => []
  | r :: rs =>
    if ¬seen.contains (dedupKeyE r) ∧ hasNonEmptyKey r then
      r :: removeDuplicatesAux (dedupKeyE r :: seen) rs
    else removeDuplicatesAux seen rs

/-- `_remove_duplicates` (enhanced_property_extractor.py lines 596–614): one
batch pass keeping a record iff its key is unseen and has a non-empty part. -/
def removeDuplicates (records : List ERecord) : List ERecord :=
  removeDuplicatesAux [] records

/-- Termination reasons of the pagination loop (spec §3 `PaginationState`). -/
inductive TermReason
  | threeConsecutiveEmpty
  | reachedKnownTotal
  | noNextAffordance
  | maxPageCap
  | userInterrupt
  deriving DecidableEq, Repr

/-- Environment of one extraction run: the `max_pages` argument (default 50),
the detected total page count (`none` models Python `None`), the outcome of
extracting each page (`.error` when extraction raises), and whether a visible
and enabled next-page affordance is found on each page. -/
structure LoopEnv where
  cap : Nat := 50
  total : Option Nat := none
  pageResult : Nat → Except String (List MRecord)
  nextAvail : Nat → Bool

/-- `actual_max_pages` (auto-extract.py lines 248–253): `min(cap, total)` when
the detected total is truthy, else the cap (Python truthiness makes a detected
total of 0 behave like `None`). -/
def actualMaxPages (e : LoopEnv) : Nat :=
  match e.total with
  | some t => if t = 0 then e.cap else min e.cap t
  | none => e.cap

/-- `extract_current_page_data` as observed by the loop: any exception raised
while extracting a page is caught and the page yields the empty list
(multi-extract.py lines 288–291). -/
def pageRecords (e : LoopEnv) (p : Nat) : List MRecord :=
  match e.pageResult p with
  | .error _ => []
  | .ok rs => rs

/-- The known-total check
(`if extractor.total_pages and page_number >= extractor.total_pages`),
including Python truthiness of `total_pages`. -/
def totalReached (e : LoopEnv) (p : Nat) : Bool :=
  match e.total with
  | some t => !(t == 0) && decide (p ≥ t)
  | none => false

/-- Result of one pagination run: the accumulated session, the final value of
`page_number`, and the reason the loop ended. -/
structure LoopResult where
  session : List MRecord
  page : Nat
  reason : TermReason
  deriving DecidableEq, Repr

/-- The pagination loop shared by `run_headless_extraction`
(auto-extract.py lines 259–316) and `run_multi_page_extraction`
(multi-extract.py lines 765–810).  `intr` is the number of loop iterations
after which a `KeyboardInterrupt` is delivered (`none` = never; delivery is
modelled at iteration boundaries); `fuel` bounds the recursion — it is
irrelevant as soon as it covers the remaining page budget, since the loop
condition `p ≤ actual_max_pages` is checked first; `p`, `c`, `s` are the
current page number, the consecutive-empty-page counter and the session.
Per iteration: extract; on an empty page increment the counter and stop at 3
with `threeConsecutiveEmpty`, on a non-empty page append and reset the
counter; then the known-total check, then the next-affordance search, then
advance. -/
def loopRun (e : LoopEnv) (intr : Option Nat) (fuel : Nat) (p c : Nat)
    (s : List MRecord) : LoopResult :=
  if intr = some 0 then ⟨s, p, .userInterrupt⟩
  else if p > actualMaxPages e then ⟨s, p, .maxPageCap⟩
  else
    match fuel with
    | 0 => ⟨s, p, .maxPageCap⟩
    | fuel' + 1 =>
      let intr' := intr.map (· - 1)
      let cont := fun (c' : Nat) (s' : List MRecord) =>
        if totalReached e p then (⟨s', p, .reachedKnownTotal⟩ : LoopResult)
        else if e.nextAvail p = false then ⟨s', p, .noNextAffordance⟩
        else loopRun e intr' fuel' (p + 1) c' s'
      let recs := pageRecords e p
      if recs.isEmpty then
        if c + 1 ≥ 3 then ⟨s, p, .threeConsecutiveEmpty⟩ else cont (c + 1) s
      else cont 0 (s ++ recs)

/-- The CSV header row written by `save_results_to_csv`
(multi-extract.py lines 727–730): the dataclass field names in order. -/
def mCsvHeader : List String :=
  ["sale_price", "sale_date", "owner_name", "property_address", "municipality",
   "square_footage", "mail_address", "mail_city_state_zip", "homesteaded",
   "parcel_number", "property_value", "lot_size", "year_built", "property_type",
   "record_url", "extraction_date", "page_number"]

/-- One CSV data row: `asdict(record)` values in dataclass field order. -/
def mCsvRow (r : MRecord) : List String :=
  [r.sale_price, r.sale_date, r.owner_name, r.property_address, r.municipality,
   r.square_footage, r.mail_address, r.mail_city_state_zip, r.homesteaded,
   r.parcel_number, r.property_value, r.lot_size, r.year_built, r.property_type,
   r.record_url, r.extraction_date, toString r.page_number]

/-- The final save step after the loop (auto-extract.py lines 324–342,
multi-extract.py lines 818–826): `save_results_to_csv` runs only when the
session is non-empty and writes a header row plus one row per record. -/
def finalOutput (session : List MRecord) : Option (List (List String)) :=
  if session.isEmpty then none
  else some (mCsvHeader :: session.map mCsvRow)

/-- The `field_order` list of `export_to_enhanced_csv`
(enhanced_property_extractor.py lines 629–641) — note the stale names
`mailing_address`, `lot_sqft`, `parcel_id`, `homestead_exemption`. -/
def enhancedFieldOrder : List String :=
  ["property_address", "owner_name", "mailing_address",
   "property_value", "assessed_value", "market_value", "taxable_value",
   "square_footage", "lot_sqft", "year_built",
   "bedrooms", "bathrooms", "half_baths",
   "property_type", "property_use", "building_class",
   "parcel_id", "account_number", "folio_number",
   "sale_price", "sale_date", "deed_book",
   "municipality", "neighborhood", "subdivision", "zoning",
   "land_use_code", "school_district",
   "tax_amount", "homestead_exemption", "exemption_amount",
   "record_url", "additional_info", "extraction_date"]

/-- `asdict(record)` for the enhanced dataclass: an association list of field
name and value in dataclass field order. -/
def eRecordDict (r : ERecord) : List (String × String) :=
  [("parcel_number", r.parcel_number), ("property_address", r.property_address),
   ("owner_name", r.owner_name), ("sale_price", r.sale_price),
   ("sale_date", r.sale_date), ("property_value", r.property_value),
   ("assessed_value", r.assessed_value), ("market_value", r.market_value),
   ("taxable_value", r.taxable_value), ("square_footage", r.square_footage),
   ("lot_size", r.lot_size), ("acres", r.acres),
   ("municipality", r.municipality), ("zoning", r.zoning),
   ("mail_address", r.mail_address), ("mail_city_state_zip", r.mail_city_state_zip),
   ("homesteaded", r.homesteaded), ("property_type", r.property_type),
   ("property_use", r.property_use), ("account_number", r.account_number),
   ("folio_number", r.folio_number), ("deed_book", r.deed_book),
   ("year_built", r.year_built), ("bedrooms", r.bedrooms),
   ("bathrooms", r.bathrooms), ("half_baths", r.half_baths),
   ("neighborhood", r.neighborhood), ("subdivision", r.subdivision),
   ("land_use_code", r.land_use_code), ("building_class", r.building_class),
   ("tax_amount", r.tax_amount), ("exemption_amount", r.exemption_amount),
   ("school_district", r.school_district), ("additional_info", r.additional_info),
   ("record_url", r.record_url), ("extraction_date", r.extraction_date)]

/-- The `friendly_headers` dict of `export_to_enhanced_csv` (lines 646–681). -/
def friendlyHeaders : List (String × String) :=
  [("property_address", "Property Address"), ("owner_name", "Owner Name"),
   ("mailing_address", "Mailing Address"), ("property_value", "Property Value"),
   ("assessed_value", "Assessed Value"), ("market_value", "Market Value"),
   ("taxable_value", "Taxable Value"), ("square_footage", "Square Footage"),
   ("lot_sqft", "Lot Size (SqFt)"), ("year_built", "Year Built"),
   ("bedrooms", "Bedrooms"), ("bathrooms", "Bathrooms"),
   ("half_baths", "Half Baths"), ("property_type", "Property Type"),
   ("property_use", "Property Use"), ("building_class", "Building Class"),
   ("parcel_id", "Parcel ID"), ("account_number", "Account Number"),
   ("folio_number", "Folio Number"), ("sale_price", "Sale Price"),
   ("sale_date", "Sale Date"), ("deed_book", "Deed Book"),
   ("municipality", "Municipality"), ("neighborhood", "Neighborhood"),
   ("subdivision", "Subdivision"), ("zoning", "Zoning"),
   ("land_use_code", "Land Use Code"), ("school_district", "School District"),
   ("tax_amount", "Tax Amount"), ("homestead_exemption", "Homestead Exemption"),
   ("exemption_amount", "Exemption Amount"), ("record_url", "Record URL"),
   ("additional_info", "Additional Info"), ("extraction_date", "Extraction Date")]

/-- `csv.DictWriter.writerow` with the default `extrasaction='raise'`: raises
`ValueError` when the row dict holds a key outside `fieldnames`, otherwise
emits the values in fieldname order (a missing key becomes the empty-string
rest value). -/
def dictWriterRow (fieldnames : List String) (row : List (String × String)) :
    Except String (List String) :=
  if (row.map Prod.fst).all (fun k => fieldnames.contains k) then
    .ok (fieldnames.map (fun f => ((row.find? (fun kv => kv.1 == f)).map Prod.snd).getD ""))
  else .error "ValueError: dict contains fields not in fieldnames"

/-- Record loop of `export_to_enhanced_csv`: a raised `ValueError` is caught
by the surrounding `except`, which returns `""` as the filename; the rows
already written stay in the file. -/
def exportLoop (fname : String) (acc : List (List String)) :
    List ERecord → String × List (List String)
  | [] => (fname, acc.reverse)
  | r :: rs =>
    match dictWriterRow enhancedFieldOrder (eRecordDict r) with
    | .error _ => ("", acc.reverse)
    | .ok row => exportLoop fname (row :: acc) rs

/-- `export_to_enhanced_csv` (enhanced_property_extractor.py lines 616–699),
modelled as the returned filename together with the CSV rows present in the
file when the function returns. -/
def exportToEnhancedCsv (fname : String) (records : List ERecord) :
    String × List (List String) :=
  if records.isEmpty then (fname, [])
  else
    match dictWriterRow enhancedFieldOrder friendlyHeaders with
    | .error _ => ("", [])
    | .ok hdr => exportLoop fname [hdr] records

/-- A rendered table as seen by `analyze_papa_page_structure`: its row count
and aggregate visible text. -/
structure ATable where
  numRows : Nat
  text : String
  deriving DecidableEq, Repr

/-- Keyword set of the data-table check (enhanced_property_extractor.py
lines 213–215). -/
def papaStructKeywords : List String :=
  ["property", "address", "owner", "value", "parcel", "account"]

/-- Data-table qualification of `analyze_papa_page_structure` (lines
206–220): more than one row, and the lower-cased aggregate text holds at
least one keyword. -/
def isDataTable (t : ATable) : Bool :=
  decide (t.numRows > 1) && papaStructKeywords.any (fun k => containsSub (pyLower t.text) k)

/-- `analysis['tables']`: the qualifying tables in document order; extraction
then runs exactly over this list (`extract_all_papa_data` lines 513–518). -/
def papaTableCandidates (ts : List ATable) : List ATable :=
  ts.filter isDataTable

/-! ## Helper lemmas about the pagination loop -/

theorem loopRun_succ (e : LoopEnv) (intr : Option Nat) (fuel p c : Nat) (s : List MRecord) :
    loopRun e intr (fuel + 1) p c s =
      if intr = some 0 then ⟨s, p, .userInterrupt⟩
      else if p > actualMaxPages e then ⟨s, p, .maxPageCap⟩
      else
        let intr' := intr.map (· - 1)
        let cont := fun (c' : Nat) (s' : List MRecord) =>
          if totalReached e p then (⟨s', p, .reachedKnownTotal⟩ : LoopResult)
          else if e.nextAvail p = false then ⟨s', p, .noNextAffordance⟩
          else loopRun e intr' fuel (p + 1) c' s'
        let recs := pageRecords e p
        if recs.isEmpty then
          if c + 1 ≥ 3 then ⟨s, p, .threeConsecutiveEmpty⟩ else cont (c + 1) s
        else cont 0 (s ++ recs) :=
  rfl

theorem loopRun_zero (e : LoopEnv) (intr : Option Nat) (p c : Nat) (s : List MRecord) :
    loopRun e intr 0 p c s =
      if intr = some 0 then ⟨s, p, .userInterrupt⟩
      else if p > actualMaxPages e then ⟨s, p, .maxPageCap⟩
      else ⟨s, p, .maxPageCap⟩ :=
  rfl

theorem loopRun_empty_cont (e : LoopEnv) (intr : Option Nat) (fuel p c : Nat)
    (s : List MRecord) (hintr : ¬intr = some 0) (hp : ¬p > actualMaxPages e)
    (hrec : pageRecords e p = []) (hc : ¬c + 1 ≥ 3) (ht : totalReached e p = false)
    (hn : e.nextAvail p = true) :
    loopRun e intr (fuel + 1) p c s = loopRun e (intr.map (· - 1)) fuel (p + 1) (c + 1) s := by
  rw [loopRun_succ]
  simp [hintr, hp, hrec, hc, ht, hn]

theorem loopRun_empty_stop (e : LoopEnv) (intr : Option Nat) (fuel p c : Nat)
    (s : List MRecord) (hintr : ¬intr = some 0) (hp : ¬p > actualMaxPages e)
    (hrec : pageRecords e p = []) (hc : c + 1 ≥ 3) :
    loopRun e intr (fuel + 1) p c s = ⟨s, p, .threeConsecutiveEmpty⟩ := by
  rw [loopRun_succ]
  simp [hintr, hp, hrec, hc]

theorem loopRun_nonempty_cont (e : LoopEnv) (intr : Option Nat) (fuel p c : Nat)
    (s : List MRecord) (hintr : ¬intr = some 0) (hp : ¬p > actualMaxPages e)
    (hrec : pageRecords e p ≠ []) (ht : totalReached e p = false)
    (hn : e.nextAvail p = true) :
    loopRun e intr (fuel + 1) p c s =
      loopRun e (intr.map (· - 1)) fuel (p + 1) 0 (s ++ pageRecords e p) := by
  rw [loopRun_succ]
  simp [hintr, hp, hrec, ht, hn]

theorem loopRun_nonempty_total_stop (e : LoopEnv) (intr : Option Nat) (fuel p c : Nat)
    (s : List MRecord) (hintr : ¬intr = some 0) (hp : ¬p > actualMaxPages e)
    (hrec : pageRecords e p ≠ []) (ht : totalReached e p = true) :
    loopRun e intr (fuel + 1) p c s = ⟨s ++ pageRecords e p, p, .reachedKnownTotal⟩ := by
  rw [loopRun_succ]
  simp [hintr, hp, hrec, ht]

theorem loopRun_empty_cont_none (e : LoopEnv) (fuel p c : Nat) (s : List MRecord)
    (hp : ¬p > actualMaxPages e) (hrec : pageRecords e p = []) (hc : ¬c + 1 ≥ 3)
    (ht : totalReached e p = false) (hn : e.nextAvail p = true) :
    loopRun e none (fuel + 1) p c s = loopRun e none fuel (p + 1) (c + 1) s := by
  rw [loopRun_empty_cont e none fuel p c s (by simp) hp hrec hc ht hn]
  rfl

theorem loopRun_nonempty_cont_none (e : LoopEnv) (fuel p c : Nat) (s : List MRecord)
    (hp : ¬p > actualMaxPages e) (hrec : pageRecords e p ≠ [])
    (ht : totalReached e p = false) (hn : e.nextAvail p = true) :
    loopRun e none (fuel + 1) p c s = loopRun e none fuel (p + 1) 0 (s ++ pageRecords e p) := by
  rw [loopRun_nonempty_cont e none fuel p c s (by simp) hp hrec ht hn]
  rfl

theorem loopRun_empty_total_stop (e : LoopEnv) (intr : Option Nat) (fuel p c : Nat)
    (s : List MRecord) (hintr : ¬intr = some 0) (hp : ¬p > actualMaxPages e)
    (hrec : pageRecords e p = []) (hc : ¬c + 1 ≥ 3) (ht : totalReached e p = true) :
    loopRun e intr (fuel + 1) p c s = ⟨s, p, .reachedKnownTotal⟩ := by
  rw [loopRun_succ]
  simp [hintr, hp, hrec, hc, ht]

theorem loopRun_empty_nonext_stop (e : LoopEnv) (intr : Option Nat) (fuel p c : Nat)
    (s : List MRecord) (hintr : ¬intr = some 0) (hp : ¬p > actualMaxPages e)
    (hrec : pageRecords e p = []) (hc : ¬c + 1 ≥ 3) (ht : totalReached e p = false)
    (hn : e.nextAvail p = false) :
    loopRun e intr (fuel + 1) p c s = ⟨s, p, .noNextAffordance⟩ := by
  rw [loopRun_succ]
  simp [hintr, hp, hrec, hc, ht, hn]

theorem loopRun_nonempty_nonext_stop (e : LoopEnv) (intr : Option Nat) (fuel p c : Nat)
    (s : List MRecord) (hintr : ¬intr = some 0) (hp : ¬p > actualMaxPages e)
    (hrec : pageRecords e p ≠ []) (ht : totalReached e p = false)
    (hn : e.nextAvail p = false) :
    loopRun e intr (fuel + 1) p c s = ⟨s ++ pageRecords e p, p, .noNextAffordance⟩ := by
  rw [loopRun_succ]
  simp [hintr, hp, hrec, ht, hn]

/-- Three empty pages starting with a zero counter terminate the loop at the
third page with `threeConsecutiveEmpty`, leaving the session unchanged. -/
theorem emptyThreeTerminate (e : LoopEnv) (fuel p : Nat) (s : List MRecord)
    (hf : 3 ≤ fuel) (hmax : p + 2 ≤ actualMaxPages e)
    (h1 : pageRecords e p = []) (h2 : pageRecords e (p + 1) = [])
    (h3 : pageRecords e (p + 2) = [])
    (ht1 : totalReached e p = false) (ht2 : totalReached e (p + 1) = false)
    (hn1 : e.nextAvail p = true) (hn2 : e.nextAvail (p + 1) = true) :
    loopRun e none fuel p 0 s = ⟨s, p + 2, .threeConsecutiveEmpty⟩ := by
  obtain ⟨f, rfl⟩ : ∃ f, fuel = f + 3 := ⟨fuel - 3, by omega⟩
  rw [show f + 3 = f + 2 + 1 from rfl,
    loopRun_empty_cont_none e (f + 2) p 0 s (by omega) h1 (by omega) ht1 hn1]
  rw [show f + 2 = f + 1 + 1 from rfl,
    loopRun_empty_cont_none e (f + 1) (p + 1) (0 + 1) s (by omega) h2 (by omega) ht2 hn2]
  rw [loopRun_empty_stop e none f (p + 2) (0 + 1 + 1) s (by simp) (by omega) h3 (by omega)]

/-- A page yielding at least one record resets the consecutive-empty counter:
the loop continues exactly as if the counter were zero. -/
theorem loopRun_reset (e : LoopEnv) (intr : Option Nat) (fuel p c : Nat)
    (s : List MRecord) (hne : pageRecords e p ≠ []) :
    loopRun e intr fuel p c s = loopRun e intr fuel p 0 s := by
  cases fuel with
  | zero => rfl
  | succ f =>
    rw [loopRun_succ, loopRun_succ]
    simp [hne]

/-! ## Claim C3 -/

/-- Claim C3 (confirmed), empty-page termination: whenever the loop sits at
page `p` with a zero consecutive-empty counter and pages `p`, `p+1`, `p+2`
each yield zero retained records (with the loop able to reach them: within
the page budget, known total not yet reached at `p` and `p+1`, and a next
affordance present there), it terminates exactly at page `p+2` with reason
`threeConsecutiveEmpty` — regardless of the next affordance or the known
total at page `p+2` — and the session is unchanged.  Moreover, on any page
yielding at least one record the consecutive-empty counter is reset to 0. -/
theorem c3_empty_page_termination :
    (∀ (e : LoopEnv) (fuel p : Nat) (s : List MRecord),
      3 ≤ fuel → p + 2 ≤ actualMaxPages e →
      pageRecords e p = [] → pageRecords e (p + 1) = [] → pageRecords e (p + 2) = [] →
      totalReached e p = false → totalReached e (p + 1) = false →
      e.nextAvail p = true → e.nextAvail (p + 1) = true →
      loopRun e none fuel p 0 s = ⟨s, p + 2, .threeConsecutiveEmpty⟩) ∧
    (∀ (e : LoopEnv) (intr : Option Nat) (fuel p c : Nat) (s : List MRecord),
      pageRecords e p ≠ [] →
      loopRun e intr fuel p c s = loopRun e intr fuel p 0 s) :=
  ⟨fun e fuel p s hf hmax h1 h2 h3 ht1 ht2 hn1 hn2 =>
    emptyThreeTerminate e fuel p s hf hmax h1 h2 h3 ht1 ht2 hn1 hn2,
   fun e intr fuel p c s hne => loopRun_reset e intr fuel p c s hne⟩

/-- Environment for the C3 witness: every page empty, next affordance always
present, no detected total. -/
def c3Env : LoopEnv where
  pageResult := fun _ => .ok []
  nextAvail := fun _ => true

/-- Witness for C3: in `c3Env` a run started at page 1 stops at page 3 with
`threeConsecutiveEmpty` even though a next affordance is present. -/
theorem c3_witness :
    loopRun c3Env none 51 1 0 [] = ⟨[], 3, .threeConsecutiveEmpty⟩ :=
  c3_empty_page_termination.1 c3Env 51 1 [] (by decide) (by decide) (by decide)
    (by decide) (by decide) (by decide) (by decide) (by decide) (by decide)

/-! ## Claim C4 -/

/-- Claim C4 (confirmed), termination completeness: with detected total 3, a
cap of at least 3, pages 1–3 each yielding records and a next affordance on
pages 1 and 2, the loop extracts pages 1, 2, 3 and stops exactly at page 3
with `reachedKnownTotal`, its session being the three pages' records in
order; no page beyond 3 is extracted or advanced to. -/
theorem c4_reached_known_total :
    ∀ (e : LoopEnv) (fuel : Nat),
      e.total = some 3 → 3 ≤ e.cap → 3 ≤ fuel →
      pageRecords e 1 ≠ [] → pageRecords e 2 ≠ [] → pageRecords e 3 ≠ [] →
      e.nextAvail 1 = true → e.nextAvail 2 = true →
      loopRun e none fuel 1 0 [] =
        ⟨pageRecords e 1 ++ pageRecords e 2 ++ pageRecords e 3, 3, .reachedKnownTotal⟩ := by
  intro e fuel htot hcap hf h1 h2 h3 hn1 hn2
  have hmax : actualMaxPages e = 3 := by
    simp [actualMaxPages, htot]
    omega
  obtain ⟨f, rfl⟩ : ∃ f, fuel = f + 3 := ⟨fuel - 3, by omega⟩
  rw [show f + 3 = f + 2 + 1 from rfl,
    loopRun_nonempty_cont_none e (f + 2) 1 0 [] (by omega)
      h1 (by simp [totalReached, htot]) hn1]
  rw [show f + 2 = f + 1 + 1 from rfl,
    loopRun_nonempty_cont_none e (f + 1) (1 + 1) 0 ([] ++ pageRecords e 1) (by omega)
      h2 (by simp [totalReached, htot]) hn2]
  rw [loopRun_nonempty_total_stop e none f (1 + 1 + 1) 0
    ([] ++ pageRecords e 1 ++ pageRecords e (1 + 1)) (by simp) (by omega)
    h3 (by simp [totalReached, htot])]
  simp

/-- One-record pages for the C4 witness. -/
def c4Rec (p : Nat) : MRecord :=
  { blankM with owner_name := "OWNER " ++ toString p, page_number := p }

/-- Environment for the C4 witness: total detected as 3, three non-empty
pages, next affordance everywhere. -/
def c4Env : LoopEnv where
  total := some 3
  pageResult := fun p => .ok [c4Rec p]
  nextAvail := fun _ => true

/-- Witness for C4: the run over `c4Env` visits pages 1–3 and stops at page 3
with `reachedKnownTotal`. -/
theorem c4_witness :
    loopRun c4Env none 51 1 0 [] = ⟨[c4Rec 1, c4Rec 2, c4Rec 3], 3, .reachedKnownTotal⟩ := by
  have h := c4_reached_known_total c4Env 51 (by decide) (by decide) (by decide)
    (by decide) (by decide) (by decide) (by decide) (by decide)
  rw [h]
  decide

/-! ## Claim C10 -/

/-- Claim C10 (confirmed), failing pages: a page whose extraction raises
contributes the empty record list (the exception is caught, the page is not
retried), so it increments the consecutive-empty counter; three consecutively
failing pages therefore end the traversal through the empty-page rule with
`threeConsecutiveEmpty`, not through an error path. -/
theorem c10_error_page_empty :
    (∀ (e : LoopEnv) (p : Nat) (err : String),
      e.pageResult p = .error err → pageRecords e p = []) ∧
    (∀ (e : LoopEnv) (fuel p : Nat) (s : List MRecord) (m1 m2 m3 : String),
      3 ≤ fuel → p + 2 ≤ actualMaxPages e →
      e.pageResult p = .error m1 → e.pageResult (p + 1) = .error m2 →
      e.pageResult (p + 2) = .error m3 →
      totalReached e p = false → totalReached e (p + 1) = false →
      e.nextAvail p = true → e.nextAvail (p + 1) = true →
      loopRun e none fuel p 0 s = ⟨s, p + 2, .threeConsecutiveEmpty⟩) := by
  constructor
  · intro e p err h
    simp [pageRecords, h]
  · intro e fuel p s m1 m2 m3 hf hmax h1 h2 h3 ht1 ht2 hn1 hn2
    exact emptyThreeTerminate e fuel p s hf hmax (by simp [pageRecords, h1])
      (by simp [pageRecords, h2]) (by simp [pageRecords, h3]) ht1 ht2 hn1 hn2

/-- Environment for the C10 witness: every page's extraction raises. -/
def c10Env : LoopEnv where
  pageResult := fun _ => .error "boom"
  nextAvail := fun _ => true

/-- Witness for C10: in `c10Env` page 1 contributes an empty list and the run
stops at page 3 with `threeConsecutiveEmpty`. -/
theorem c10_witness :
    pageRecords c10Env 1 = [] ∧
      loopRun c10Env none 51 1 0 [] = ⟨[], 3, .threeConsecutiveEmpty⟩ :=
  ⟨c10_error_page_empty.1 c10Env 1 "boom" rfl,
   c10_error_page_empty.2 c10Env 51 1 [] "boom" "boom" "boom" (by decide) (by decide)
     rfl rfl rfl (by decide) (by decide) (by decide) (by decide)⟩

/-! ## Claim C5 -/

/-- The loop only ever appends to the session, whatever the interrupt
budget: accumulated records are never discarded. -/
theorem loopRun_session_extends (e : LoopEnv) (fuel : Nat) :
    ∀ (intr : Option Nat) (p c : Nat) (s : List MRecord),
      ∃ extra, (loopRun e intr fuel p c s).session = s ++ extra := by
  induction fuel with
  | zero =>
    intro intr p c s
    rw [loopRun_zero]
    split_ifs <;> exact ⟨[], by simp⟩
  | succ f ih =>
    intro intr p c s
    by_cases hintr : intr = some 0
    · rw [loopRun_succ, if_pos hintr]
      exact ⟨[], by simp⟩
    by_cases hp : p > actualMaxPages e
    · rw [loopRun_succ, if_neg hintr, if_pos hp]
      exact ⟨[], by simp⟩
    by_cases hrec : pageRecords e p = []
    · by_cases hc : c + 1 ≥ 3
      · rw [loopRun_empty_stop e intr f p c s hintr hp hrec hc]
        exact ⟨[], by simp⟩
      cases ht : totalReached e p with
      | true =>
        rw [loopRun_empty_total_stop e intr f p c s hintr hp hrec hc ht]
        exact ⟨[], by simp⟩
      | false =>
        cases hn : e.nextAvail p with
        | false =>
          rw [loopRun_empty_nonext_stop e intr f p c s hintr hp hrec hc ht hn]
          exact ⟨[], by simp⟩
        | true =>
          rw [loopRun_empty_cont e intr f p c s hintr hp hrec hc ht hn]
          exact ih (intr.map (· - 1)) (p + 1) (c + 1) s
    · cases ht : totalReached e p with
      | true =>
        rw [loopRun_nonempty_total_stop e intr f p c s hintr hp hrec ht]
        exact ⟨pageRecords e p, rfl⟩
      | false =>
        cases hn : e.nextAvail p with
        | false =>
          rw [loopRun_nonempty_nonext_stop e intr f p c s hintr hp hrec ht hn]
          exact ⟨pageRecords e p, rfl⟩
        | true =>
          rw [loopRun_nonempty_cont e intr f p c s hintr hp hrec ht hn]
          obtain ⟨extra, hex⟩ := ih (intr.map (· - 1)) (p + 1) 0 (s ++ pageRecords e p)
          exact ⟨pageRecords e p ++ extra, by rw [hex, List.append_assoc]⟩

/-- An interrupted run either ends with `userInterrupt` or behaves exactly
like the uninterrupted run (when it terminates before the interrupt). -/
theorem loopRun_interrupt_or_none (e : LoopEnv) (fuel : Nat) :
    ∀ (k p c : Nat) (s : List MRecord),
      (loopRun e (some k) fuel p c s).reason = .userInterrupt ∨
        loopRun e (some k) fuel p c s = loopRun e none fuel p c s := by
  induction fuel with
  | zero =>
    intro k p c s
    by_cases hk : k = 0
    · subst hk
      left
      rw [loopRun_zero]
      simp
    · right
      rw [loopRun_zero, loopRun_zero]
      simp [hk]
  | succ f ih =>
    intro k p c s
    by_cases hk : k = 0
    · subst hk
      left
      rw [loopRun_succ]
      simp
    have hsk : ¬((some k : Option Nat) = some 0) := by simp [hk]
    have hno : ¬((none : Option Nat) = some 0) := by simp
    by_cases hp : p > actualMaxPages e
    · right
      rw [loopRun_succ, loopRun_succ, if_neg hsk, if_neg hno, if_pos hp, if_pos hp]
    by_cases hrec : pageRecords e p = []
    · by_cases hc : c + 1 ≥ 3
      · right
        rw [loopRun_empty_stop e (some k) f p c s hsk hp hrec hc,
          loopRun_empty_stop e none f p c s hno hp hrec hc]
      cases ht : totalReached e p with
      | true =>
        right
        rw [loopRun_empty_total_stop e (some k) f p c s hsk hp hrec hc ht,
          loopRun_empty_total_stop e none f p c s hno hp hrec hc ht]
      | false =>
        cases hn : e.nextAvail p with
        | false =>
          right
          rw [loopRun_empty_nonext_stop e (some k) f p c s hsk hp hrec hc ht hn,
            loopRun_empty_nonext_stop e none f p c s hno hp hrec hc ht hn]
        | true =>
          rw [loopRun_empty_cont e (some k) f p c s hsk hp hrec hc ht hn,
            loopRun_empty_cont e none f p c s hno hp hrec hc ht hn]
          simpa using ih (k - 1) (p + 1) (c + 1) s
    · cases ht : totalReached e p with
      | true =>
        right
        rw [loopRun_nonempty_total_stop e (some k) f p c s hsk hp hrec ht,
          loopRun_nonempty_total_stop e none f p c s hno hp hrec ht]
      | false =>
        cases hn : e.nextAvail p with
        | false =>
          right
          rw [loopRun_nonempty_nonext_stop e (some k) f p c s hsk hp hrec ht hn,
            loopRun_nonempty_nonext_stop e none f p c s hno hp hrec ht hn]
        | true =>
          rw [loopRun_nonempty_cont e (some k) f p c s hsk hp hrec ht hn,
            loopRun_nonempty_cont e none f p c s hno hp hrec ht hn]
          simpa using ih (k - 1) (p + 1) 0 (s ++ pageRecords e p)

/-- Claim C5 (confirmed), interrupt preserves the Session: a run with an
interrupt delivered after `k` iterations either reports `userInterrupt` (or,
if the traversal had already ended, behaves exactly like the uninterrupted
run); its session only extends the records accumulated when it started; and
whenever the session is non-empty the final save writes the full session —
a header row plus exactly one CSV row per accumulated record. -/
theorem c5_interrupt_preserves_session :
    ∀ (e : LoopEnv) (k fuel p c : Nat) (s : List MRecord),
      ((loopRun e (some k) fuel p c s).reason = .userInterrupt ∨
        loopRun e (some k) fuel p c s = loopRun e none fuel p c s) ∧
      (∃ extra, (loopRun e (some k) fuel p c s).session = s ++ extra) ∧
      ((loopRun e (some k) fuel p c s).session ≠ [] →
        finalOutput (loopRun e (some k) fuel p c s).session =
          some (mCsvHeader :: (loopRun e (some k) fuel p c s).session.map mCsvRow)) := by
  intro e k fuel p c s
  refine ⟨loopRun_interrupt_or_none e fuel k p c s,
    loopRun_session_extends e fuel (some k) p c s, ?_⟩
  intro hne
  simp [finalOutput, hne]

/-- Records for the C5 witness: page 1 yields four, page 2 yields three. -/
def c5Rec (p i : Nat) : MRecord :=
  { blankM with owner_name := "OWNER " ++ toString p ++ toString i, page_number := p }

/-- Environment for the C5 witness. -/
def c5Env : LoopEnv where
  pageResult := fun p =>
    if p = 1 then .ok [c5Rec 1 1, c5Rec 1 2, c5Rec 1 3, c5Rec 1 4]
    else .ok [c5Rec 2 1, c5Rec 2 2, c5Rec 2 3]
  nextAvail := fun _ => true

/-- Witness for C5: interrupting after two pages (7 records accumulated)
reports `userInterrupt` and the final file still holds all 7 records. -/
theorem c5_witness :
    (loopRun c5Env (some 2) 51 1 0 []).reason = .userInterrupt ∧
    (loopRun c5Env (some 2) 51 1 0 []).session.length = 7 ∧
    finalOutput (loopRun c5Env (some 2) 51 1 0 []).session =
      some (mCsvHeader :: (loopRun c5Env (some 2) 51 1 0 []).session.map mCsvRow) :=
  ⟨by decide, by decide,
   (c5_interrupt_preserves_session c5Env 2 51 1 0 []).2.2 (by decide)⟩

/-! ## Claim C6 -/

/-- The string fields of `MRecord`, as projections. -/
def mFieldProjs : List (MRecord → String) :=
  [(·.sale_price), (·.sale_date), (·.owner_name), (·.property_address),
   (·.municipality), (·.square_footage), (·.mail_address), (·.mail_city_state_zip),
   (·.homesteaded), (·.parcel_number), (·.property_value), (·.lot_size),
   (·.year_built), (·.property_type), (·.record_url), (·.extraction_date)]

/-- A pass from `r` to `r'` overwrote no populated `MRecord` field: every
field non-empty in `r` keeps its value, and the page number is unchanged. -/
def noOverwriteM (r r' : MRecord) : Prop :=
  (∀ f ∈ mFieldProjs, f r ≠ "" → f r' = f r) ∧ r'.page_number = r.page_number

/-- The string fields of `ERecord`, as projections. -/
def eFieldProjs : List (ERecord → String) :=
  [(·.parcel_number), (·.property_address), (·.owner_name), (·.sale_price),
   (·.sale_date), (·.property_value), (·.assessed_value), (·.market_value),
   (·.taxable_value), (·.square_footage), (·.lot_size), (·.acres),
   (·.municipality), (·.zoning), (·.mail_address), (·.mail_city_state_zip),
   (·.homesteaded), (·.property_type), (·.property_use), (·.account_number),
   (·.folio_number), (·.deed_book), (·.year_built), (·.bedrooms),
   (·.bathrooms), (·.half_baths), (·.neighborhood), (·.subdivision),
   (·.land_use_code), (·.building_class), (·.tax_amount), (·.exemption_amount),
   (·.school_district), (·.additional_info), (·.record_url), (·.extraction_date)]

/-- A pass from `r` to `r'` overwrote no populated `ERecord` field. -/
def noOverwriteE (r r' : ERecord) : Prop :=
  ∀ f ∈ eFieldProjs, f r ≠ "" → f r' = f r

theorem compField {a b c : String} (h1 : a ≠ "" → b = a) (h2 : b ≠ "" → c = b)
    (ha : a ≠ "") : c = a := by
  rw [h2 (by rw [h1 ha]; exact ha), h1 ha]

theorem noOverwriteM_refl (r : MRecord) : noOverwriteM r r :=
  ⟨fun _ _ _ => rfl, rfl⟩

theorem noOverwriteM_trans {a b c : MRecord} (h1 : noOverwriteM a b)
    (h2 : noOverwriteM b c) : noOverwriteM a c :=
  ⟨fun f hf => compField (h1.1 f hf) (h2.1 f hf), h2.2.trans h1.2⟩

theorem noOverwriteE_refl (r : ERecord) : noOverwriteE r r :=
  fun _ _ _ => rfl

theorem noOverwriteE_trans {a b c : ERecord} (h1 : noOverwriteE a b)
    (h2 : noOverwriteE b c) : noOverwriteE a c :=
  fun f hf => compField (h1 f hf) (h2 f hf)

theorem backfillStep_pres (t : String) (r out : MRecord)
    (h : backfillStep t r = .ok out) : noOverwriteM r out := by
  unfold backfillStep at h
  split_ifs at h <;>
    first
      | (injection h with h
         subst h
         exact noOverwriteM_refl r)
      | (injection h with h
         subst h
         refine ⟨?_, rfl⟩
         intro f hf hne
         simp only [mFieldProjs, List.mem_cons, List.not_mem_nil, or_false] at hf
         rcases hf with rfl | rfl | rfl | rfl | rfl | rfl | rfl | rfl | rfl | rfl | rfl |
           rfl | rfl | rfl | rfl | rfl <;> simp_all)

theorem backfillCells_pres (texts : List String) :
    ∀ (r out : MRecord), backfillCells texts r = .ok out → noOverwriteM r out := by
  induction texts with
  | nil =>
    intro r out h
    simp only [backfillCells] at h
    injection h with h
    subst h
    exact noOverwriteM_refl r
  | cons t ts ih =>
    intro r out h
    simp only [backfillCells] at h
    cases hstep : backfillStep t r with
    | error msg => rw [hstep] at h; cases h
    | ok r2 =>
      rw [hstep] at h
      exact noOverwriteM_trans (backfillStep_pres t r r2 hstep) (ih r2 out h)

theorem papaAddr_pres (o : EOracle) (text : String) (r : ERecord) :
    noOverwriteE r (papaAddr o text r) := by
  intro f hf hne
  simp only [eFieldProjs, List.mem_cons, List.not_mem_nil, or_false] at hf
  unfold papaAddr
  split
  · cases o.addrM text with
    | none =>
      rcases hf with rfl | rfl | rfl | rfl | rfl | rfl | rfl | rfl | rfl | rfl | rfl | rfl |
        rfl | rfl | rfl | rfl | rfl | rfl | rfl | rfl | rfl | rfl | rfl | rfl | rfl | rfl |
        rfl | rfl | rfl | rfl | rfl | rfl | rfl | rfl | rfl | rfl <;> simp_all
    | some g =>
      rcases hf with rfl | rfl | rfl | rfl | rfl | rfl | rfl | rfl | rfl | rfl | rfl | rfl |
        rfl | rfl | rfl | rfl | rfl | rfl | rfl | rfl | rfl | rfl | rfl | rfl | rfl | rfl |
        rfl | rfl | rfl | rfl | rfl | rfl | rfl | rfl | rfl | rfl <;> simp_all
  · rfl

theorem papaParcel_pres (o : EOracle) (text : String) (r : ERecord) :
    noOverwriteE r (papaParcel o text r) := by
  intro f hf hne
  simp only [eFieldProjs, List.mem_cons, List.not_mem_nil, or_false] at hf
  unfold papaParcel
  split
  · cases o.parcelM text with
    | none =>
      rcases hf with rfl | rfl | rfl | rfl | rfl | rfl | rfl | rfl | rfl | rfl | rfl | rfl | rfl | rfl | rfl | rfl | rfl | rfl | rfl | rfl | rfl | rfl | rfl | rfl | rfl | rfl | rfl | rfl | rfl | rfl | rfl | rfl | rfl | rfl | rfl | rfl <;> simp_all
    | some g =>
      rcases hf with rfl | rfl | rfl | rfl | rfl | rfl | rfl | rfl | rfl | rfl | rfl | rfl | rfl | rfl | rfl | rfl | rfl | rfl | rfl | rfl | rfl | rfl | rfl | rfl | rfl | rfl | rfl | rfl | rfl | rfl | rfl | rfl | rfl | rfl | rfl | rfl <;> simp_all
  · rfl

theorem papaValue_pres (o : EOracle) (text : String) (r : ERecord) :
    noOverwriteE r (papaValue o text r) := by
  intro f hf hne
  simp only [eFieldProjs, List.mem_cons, List.not_mem_nil, or_false] at hf
  unfold papaValue
  split
  · cases o.valueM text with
    | none =>
      rcases hf with rfl | rfl | rfl | rfl | rfl | rfl | rfl | rfl | rfl | rfl | rfl | rfl | rfl | rfl | rfl | rfl | rfl | rfl | rfl | rfl | rfl | rfl | rfl | rfl | rfl | rfl | rfl | rfl | rfl | rfl | rfl | rfl | rfl | rfl | rfl | rfl <;> simp_all
    | some g =>
      rcases hf with rfl | rfl | rfl | rfl | rfl | rfl | rfl | rfl | rfl | rfl | rfl | rfl | rfl | rfl | rfl | rfl | rfl | rfl | rfl | rfl | rfl | rfl | rfl | rfl | rfl | rfl | rfl | rfl | rfl | rfl | rfl | rfl | rfl | rfl | rfl | rfl <;> simp_all
  · rfl

theorem papaAcres_pres (o : EOracle) (text : String) (r : ERecord) :
    noOverwriteE r (papaAcres o text r) := by
  intro f hf hne
  simp only [eFieldProjs, List.mem_cons, List.not_mem_nil, or_false] at hf
  unfold papaAcres
  split
  · cases o.acresM text with
    | none =>
      rcases hf with rfl | rfl | rfl | rfl | rfl | rfl | rfl | rfl | rfl | rfl | rfl | rfl | rfl | rfl | rfl | rfl | rfl | rfl | rfl | rfl | rfl | rfl | rfl | rfl | rfl | rfl | rfl | rfl | rfl | rfl | rfl | rfl | rfl | rfl | rfl | rfl <;> simp_all
    | some g =>
      rcases hf with rfl | rfl | rfl | rfl | rfl | rfl | rfl | rfl | rfl | rfl | rfl | rfl | rfl | rfl | rfl | rfl | rfl | rfl | rfl | rfl | rfl | rfl | rfl | rfl | rfl | rfl | rfl | rfl | rfl | rfl | rfl | rfl | rfl | rfl | rfl | rfl <;> simp_all
  · rfl

theorem papaMail_pres (o : EOracle) (text : String) (r : ERecord) :
    noOverwriteE r (papaMail o text r) := by
  intro f hf hne
  simp only [eFieldProjs, List.mem_cons, List.not_mem_nil, or_false] at hf
  unfold papaMail
  split
  · cases o.mailM text with
    | none =>
      rcases hf with rfl | rfl | rfl | rfl | rfl | rfl | rfl | rfl | rfl | rfl | rfl | rfl | rfl | rfl | rfl | rfl | rfl | rfl | rfl | rfl | rfl | rfl | rfl | rfl | rfl | rfl | rfl | rfl | rfl | rfl | rfl | rfl | rfl | rfl | rfl | rfl <;> simp_all
    | some g =>
      rcases hf with rfl | rfl | rfl | rfl | rfl | rfl | rfl | rfl | rfl | rfl | rfl | rfl | rfl | rfl | rfl | rfl | rfl | rfl | rfl | rfl | rfl | rfl | rfl | rfl | rfl | rfl | rfl | rfl | rfl | rfl | rfl | rfl | rfl | rfl | rfl | rfl <;> simp_all
  · rfl

theorem papaLot_pres (o : EOracle) (text : String) (r : ERecord) :
    noOverwriteE r (papaLot o text r) := by
  intro f hf hne
  simp only [eFieldProjs, List.mem_cons, List.not_mem_nil, or_false] at hf
  unfold papaLot
  split
  · cases o.lotM text with
    | none =>
      rcases hf with rfl | rfl | rfl | rfl | rfl | rfl | rfl | rfl | rfl | rfl | rfl | rfl | rfl | rfl | rfl | rfl | rfl | rfl | rfl | rfl | rfl | rfl | rfl | rfl | rfl | rfl | rfl | rfl | rfl | rfl | rfl | rfl | rfl | rfl | rfl | rfl <;> simp_all
    | some g =>
      rcases hf with rfl | rfl | rfl | rfl | rfl | rfl | rfl | rfl | rfl | rfl | rfl | rfl | rfl | rfl | rfl | rfl | rfl | rfl | rfl | rfl | rfl | rfl | rfl | rfl | rfl | rfl | rfl | rfl | rfl | rfl | rfl | rfl | rfl | rfl | rfl | rfl <;> simp_all
  · rfl

theorem papaMuni_pres (text : String) (r : ERecord) :
    noOverwriteE r (papaMuni text r) := by
  intro f hf hne
  simp only [eFieldProjs, List.mem_cons, List.not_mem_nil, or_false] at hf
  unfold papaMuni
  split
  · split
    · rcases hf with rfl | rfl | rfl | rfl | rfl | rfl | rfl | rfl | rfl | rfl | rfl | rfl | rfl | rfl | rfl | rfl | rfl | rfl | rfl | rfl | rfl | rfl | rfl | rfl | rfl | rfl | rfl | rfl | rfl | rfl | rfl | rfl | rfl | rfl | rfl | rfl <;> simp_all
    · rfl
  · rfl

theorem papaHome_pres (o : EOracle) (text : String) (r : ERecord) :
    noOverwriteE r (papaHome o text r) := by
  intro f hf hne
  simp only [eFieldProjs, List.mem_cons, List.not_mem_nil, or_false] at hf
  unfold papaHome
  split
  · cases o.homeM text with
    | none =>
      rcases hf with rfl | rfl | rfl | rfl | rfl | rfl | rfl | rfl | rfl | rfl | rfl | rfl | rfl | rfl | rfl | rfl | rfl | rfl | rfl | rfl | rfl | rfl | rfl | rfl | rfl | rfl | rfl | rfl | rfl | rfl | rfl | rfl | rfl | rfl | rfl | rfl <;> simp_all
    | some g =>
      (rcases hf with rfl | rfl | rfl | rfl | rfl | rfl | rfl | rfl | rfl | rfl | rfl | rfl | rfl | rfl | rfl | rfl | rfl | rfl | rfl | rfl | rfl | rfl | rfl | rfl | rfl | rfl | rfl | rfl | rfl | rfl | rfl | rfl | rfl | rfl | rfl | rfl) <;> (simp only []; split_ifs <;> simp_all)
  · rfl

theorem papaPatterns_pres (o : EOracle) (text : String) (r : ERecord) :
    noOverwriteE r (papaPatterns o text r) := by
  unfold papaPatterns
  exact noOverwriteE_trans (noOverwriteE_trans (noOverwriteE_trans (noOverwriteE_trans
    (noOverwriteE_trans (noOverwriteE_trans (noOverwriteE_trans (papaAddr_pres o text r)
      (papaParcel_pres o text _)) (papaValue_pres o text _)) (papaMuni_pres text _))
    (papaAcres_pres o text _)) (papaMail_pres o text _)) (papaHome_pres o text _))
    (papaLot_pres o text _)

/-- Claim C6 (confirmed), backfill is non-destructive: in multi-extract's
cell backfill pass, an `.ok` result never replaces a field already populated
(whether by the header-based or the position-based mapping pass that ran
before it) and keeps the page number; and the enhanced extractor's
`_extract_papa_patterns` pass never replaces a populated field, for every
behaviour of its regex matchers. -/
theorem c6_backfill_nondestructive :
    (∀ (texts : List String) (r out : MRecord),
      backfillCells texts r = .ok out → noOverwriteM r out) ∧
    (∀ (o : EOracle) (text : String) (r : ERecord),
      noOverwriteE r (papaPatterns o text r)) :=
  ⟨fun texts r out h => backfillCells_pres texts r out h,
   fun o text r => papaPatterns_pres o text r⟩

/-- Record for the C6 witness: sale price already populated, as in the spec's
example. -/
def c6Rec : MRecord := { blankM with sale_price := "$450,000" }

/-- Enhanced record for the C6 witness: address already populated. -/
def c6RecE : ERecord := { blankE with property_address := "123 MAIN ST" }

/-- Oracle for the C6 witness in which every pattern matches something. -/
def c6Oracle : EOracle :=
  ⟨fun _ => some "9 OAK AVE", fun _ => some "00-1234-567-8901", fun _ => some "1,000",
   fun _ => some "2.5", fun _ => some "BOCA, FL 33333", fun _ => some "Yes",
   fun _ => some "4,000"⟩

/-- Witness for C6: running the multi-extract backfill over a currency cell
leaves the populated sale price alone, and the enhanced pattern pass with an
always-matching oracle leaves the populated address alone. -/
theorem c6_witness :
    noOverwriteM c6Rec c6Rec ∧ noOverwriteE c6RecE (papaPatterns c6Oracle "text" c6RecE) :=
  ⟨c6_backfill_nondestructive.1 ["$999"] c6Rec c6Rec rfl,
   c6_backfill_nondestructive.2 c6Oracle "text" c6RecE⟩

/-! ## Claim C1 -/

/-- Every record produced by the data-row loop of `extract_from_table`
passes its retention check. -/
theorem mem_processRowsM (hdr : Option (List String)) (now : String) (page : Nat) :
    ∀ (rows : List HRow) (r : MRecord),
      r ∈ processRowsM hdr now page rows → retainedM r = true := by
  intro rows
  induction rows with
  | nil => intro r h; simp [processRowsM] at h
  | cons row rest ih =>
    intro r h
    simp only [processRowsM] at h
    split at h
    · exact ih r h
    · split at h
      · simp at h
      · split at h
        · rcases List.mem_cons.mp h with rfl | hmem
          · assumption
          · exact ih r hmem
        · exact ih r h

section

attribute [local irreducible] buildRowE

/-- Every record produced by the data-row loop of `extract_from_papa_table`
passes its retention check. -/
theorem mem_processRowsE (o : EOracle) (mapping : List (Option EField))
    (numHeaders : Nat) (now : String) :
    ∀ (rows : List HRow) (r : ERecord),
      r ∈ processRowsE o mapping numHeaders now rows → retainedE r = true := by
  intro rows
  induction rows with
  | nil => intro r h; simp [processRowsE] at h
  | cons row rest ih =>
    intro r h
    simp only [processRowsE] at h
    split at h
    · exact ih r h
    · split at h
      · rcases List.mem_cons.mp h with rfl | hmem
        · assumption
        · exact ih r hmem
      · exact ih r h

end

theorem retainedM_spec {r : MRecord} (h : retainedM r = true) :
    r.sale_price ≠ "" ∨ r.property_address ≠ "" ∨ r.owner_name ≠ "" ∨
      r.municipality ≠ "" ∨ r.parcel_number ≠ "" := by
  simpa [retainedM, or_assoc] using h

theorem retainedE_spec {r : ERecord} (h : retainedE r = true) :
    r.property_address ≠ "" ∨ r.owner_name ≠ "" ∨ r.parcel_number ≠ "" := by
  simpa [retainedE, or_assoc] using h

/-- Table used to refute C1: headers match no keyword, the data row carries
only a sale price. -/
def c1Table : HTable :=
  ⟨[⟨[], ["aaa", "bbb", "ccc"], [], ""⟩, ⟨[], ["$500,000", "", ""], [], ""⟩]⟩

/-- The record `extract_from_table` emits for `c1Table`. -/
def c1Rec : MRecord :=
  { blankM with sale_price := "$500,000", extraction_date := "TS", page_number := 1 }

/-- Claim C1, counterexample: `extract_from_table` of multi-extract retains a
record whose property address, owner name and parcel number are all empty —
its retention check also accepts a bare sale price (or municipality), so the
claimed `{address, owner, parcel}` invariant fails on this path. -/
theorem c1_retention_counterexample :
    extractFromTableM "TS" c1Table 1 = [c1Rec] ∧
      c1Rec.property_address = "" ∧ c1Rec.owner_name = "" ∧
      c1Rec.parcel_number = "" := by
  decide

/-- Claim C1 (corrected): the retention invariant differs per path.  Records
emitted by multi-extract's `extract_from_table` have at least one of
{sale price, property address, owner name, municipality, parcel number}
non-empty; records emitted by the enhanced extractor's
`extract_from_papa_table` satisfy the spec's invariant — at least one of
{property address, owner name, parcel number} non-empty. -/
theorem c1_retention_amended :
    (∀ (now : String) (tbl : HTable) (page : Nat) (r : MRecord),
      r ∈ extractFromTableM now tbl page →
        r.sale_price ≠ "" ∨ r.property_address ≠ "" ∨ r.owner_name ≠ "" ∨
          r.municipality ≠ "" ∨ r.parcel_number ≠ "") ∧
    (∀ (o : EOracle) (now : String) (tbl : HTable) (r : ERecord),
      r ∈ extractFromPapaTable o now tbl →
        r.property_address ≠ "" ∨ r.owner_name ≠ "" ∨ r.parcel_number ≠ "") := by
  constructor
  · intro now tbl page r h
    exact retainedM_spec (mem_processRowsM _ now page _ r h)
  · intro o now tbl r h
    unfold extractFromPapaTable at h
    split at h
    · simp at h
    · exact retainedE_spec (mem_processRowsE o _ _ now _ r h)

/-- Table for the enhanced half of the C1 witness. -/
def c1TableE : HTable :=
  ⟨[⟨["Owner Name", "Location"], [], [], ""⟩, ⟨[], ["JANE DOE", "123 MAIN ST"], [], ""⟩]⟩

/-- The record the enhanced extractor emits for `c1TableE`. -/
def c1RecE : ERecord :=
  { blankE with
    owner_name := "JANE DOE"
    property_address := "123 MAIN ST"
    extraction_date := "TS" }

/-- Oracle whose regexes never match. -/
def noneOracle : EOracle :=
  ⟨fun _ => none, fun _ => none, fun _ => none, fun _ => none, fun _ => none,
   fun _ => none, fun _ => none⟩

/-- Witness for C1: both conjuncts of the amended claim applied to concrete
extractions. -/
theorem c1_retention_witness :
    (c1Rec.sale_price ≠ "" ∨ c1Rec.property_address ≠ "" ∨ c1Rec.owner_name ≠ "" ∨
      c1Rec.municipality ≠ "" ∨ c1Rec.parcel_number ≠ "") ∧
    (c1RecE.property_address ≠ "" ∨ c1RecE.owner_name ≠ "" ∨ c1RecE.parcel_number ≠ "") :=
  ⟨c1_retention_amended.1 "TS" c1Table 1 c1Rec (by decide),
   c1_retention_amended.2 noneOracle "TS" c1TableE c1RecE (by decide)⟩

/-! ## Claim C2 -/

/-- Number of records in `l` carrying the dedup key `k`. -/
def countKey (k : String) (l : List ERecord) : Nat :=
  (l.filter (fun r => dedupKeyE r == k)).length

/-- Once a key is in `seen`, `_remove_duplicates` never emits a record with
that key again. -/
theorem removeDuplicatesAux_seen (k : String) :
    ∀ (rs : List ERecord) (seen : List String), k ∈ seen →
      countKey k (removeDuplicatesAux seen rs) = 0 := by
  intro rs
  induction rs with
  | nil => intro seen _; rfl
  | cons r rs ih =>
    intro seen hk
    simp only [removeDuplicatesAux]
    split
    · rename_i hcond
      have hne : (dedupKeyE r == k) = false := by
        rw [beq_eq_false_iff_ne]
        intro he
        exact hcond.1 (List.elem_iff.mpr (he ▸ hk))
      simp only [countKey, List.filter, hne]
      simpa [countKey] using ih (dedupKeyE r :: seen) (List.mem_cons_of_mem _ hk)
    · exact ih seen hk

/-- `_remove_duplicates` keeps at most one record per dedup key. -/
theorem removeDuplicatesAux_once (k : String) :
    ∀ (rs : List ERecord) (seen : List String),
      countKey k (removeDuplicatesAux seen rs) ≤ 1 := by
  intro rs
  induction rs with
  | nil => intro seen; simp [removeDuplicatesAux, countKey]
  | cons r rs ih =>
    intro seen
    simp only [removeDuplicatesAux]
    split
    · by_cases hk : dedupKeyE r = k
      · have h0 := removeDuplicatesAux_seen k rs (dedupKeyE r :: seen)
          (by rw [hk]; exact List.mem_cons_self _ _)
        have hb : (dedupKeyE r == k) = true := by simpa using hk
        simp only [countKey, List.filter, hb, List.length_cons]
        simp only [countKey] at h0
        omega
      · have hne : (dedupKeyE r == k) = false := by simpa using hk
        simp only [countKey, List.filter, hne]
        simpa [countKey] using ih (dedupKeyE r :: seen)
    · exact ih seen

/-- The first record carrying a fresh non-empty key is kept by
`_remove_duplicates`. -/
theorem removeDuplicatesAux_first (r : ERecord) (bs : List ERecord) :
    ∀ (as : List ERecord) (seen : List String),
      (∀ a ∈ as, dedupKeyE a ≠ dedupKeyE r) → dedupKeyE r ∉ seen →
      hasNonEmptyKey r = true → r ∈ removeDuplicatesAux seen (as ++ r :: bs) := by
  intro as
  induction as with
  | nil =>
    intro seen _ hseen hkey
    simp only [List.nil_append, removeDuplicatesAux]
    rw [if_pos]
    · exact List.mem_cons_self _ _
    · refine ⟨?_, hkey⟩
      simpa [List.contains, List.elem_iff] using hseen
  | cons a as ih =>
    intro seen ha hseen hkey
    simp only [List.cons_append, removeDuplicatesAux]
    split
    · refine List.mem_cons_of_mem _ (ih (dedupKeyE a :: seen) ?_ ?_ hkey)
      · exact fun x hx => ha x (List.mem_cons_of_mem _ hx)
      · simp only [List.mem_cons, not_or]
        exact ⟨fun he => ha a (List.mem_cons_self _ _) he.symm, hseen⟩
    · exact ih seen (fun x hx => ha x (List.mem_cons_of_mem _ hx)) hseen hkey

/-- Records for the C2 counterexample: identical non-empty dedup keys,
arriving on pages 1 and 2. -/
def c2Rec (p : Nat) : MRecord :=
  { blankM with
    owner_name := "JANE DOE"
    property_address := "123 MAIN ST"
    page_number := p }

/-- Environment for the C2 counterexample: each page yields the same record. -/
def c2Env : LoopEnv where
  pageResult := fun p => .ok [c2Rec p]
  nextAvail := fun p => p == 1

/-- Claim C2, counterexample: the pagination loop applies no deduplication at
all — two records with the identical non-empty (address, parcel, owner) key
from pages 1 and 2 are both retained in the Session, where the claim says
only the first is kept and dedup is applied incrementally per page. -/
theorem c2_dedup_counterexample :
    (loopRun c2Env none 51 1 0 []).session = [c2Rec 1, c2Rec 2] ∧
      (c2Rec 1).property_address = (c2Rec 2).property_address ∧
      (c2Rec 1).parcel_number = (c2Rec 2).parcel_number ∧
      (c2Rec 1).owner_name = (c2Rec 2).owner_name ∧
      (c2Rec 1).property_address ≠ "" := by
  decide

/-- Claim C2 (corrected): the multi-page Session receives page records by
plain append with no deduplication (see the counterexample); deduplication
exists only in the enhanced single-page extractor, where `_remove_duplicates`
runs once as a final batch pass and there satisfies first-wins semantics:
the first record of a non-empty key is kept and at most one record per key
survives. -/
theorem c2_dedup_amended :
    ∀ (records prevRecs tailRecs : List ERecord) (r : ERecord),
      records = prevRecs ++ r :: tailRecs →
      (∀ a ∈ prevRecs, dedupKeyE a ≠ dedupKeyE r) →
      hasNonEmptyKey r = true →
      r ∈ removeDuplicates records ∧
        ∀ k : String, countKey k (removeDuplicates records) ≤ 1 := by
  intro records prevRecs tailRecs r hrec ha hkey
  subst hrec
  exact ⟨removeDuplicatesAux_first r tailRecs prevRecs [] ha (by simp) hkey,
    fun k => removeDuplicatesAux_once k _ []⟩

/-- First record for the C2 witness. -/
def c2RecE : ERecord := { blankE with owner_name := "JANE DOE" }

/-- Second record for the C2 witness: same key, different URL. -/
def c2RecE2 : ERecord := { blankE with owner_name := "JANE DOE", record_url := "u2" }

/-- Witness for C2: on a concrete duplicate pair `_remove_duplicates` keeps
the first record and at most one per key. -/
theorem c2_dedup_witness :
    c2RecE ∈ removeDuplicates [c2RecE, c2RecE2] ∧
      countKey (dedupKeyE c2RecE) (removeDuplicates [c2RecE, c2RecE2]) ≤ 1 :=
  ⟨(c2_dedup_amended [c2RecE, c2RecE2] [] [c2RecE2] c2RecE rfl (by simp) (by decide)).1,
   (c2_dedup_amended [c2RecE, c2RecE2] [] [c2RecE2] c2RecE rfl (by simp) (by decide)).2
     (dedupKeyE c2RecE)⟩

/-! ## Claim C7 -/

/-- A retained record for the C7 evaluation. -/
def c7Rec : ERecord := { blankE with property_address := "123 MAIN ST" }

theorem c7_header_row :
    dictWriterRow enhancedFieldOrder friendlyHeaders = .ok (friendlyHeaders.map Prod.snd) :=
  rfl

theorem c7_record_row_raises :
    dictWriterRow enhancedFieldOrder (eRecordDict c7Rec) =
      .error "ValueError: dict contains fields not in fieldnames" :=
  rfl

/-- Claim C7 (code bug): `export_to_enhanced_csv` can never write a data row.
Its `field_order` still holds the pre-rename names (`mailing_address`,
`lot_sqft`, `parcel_id`, `homestead_exemption`), so `asdict(record)` carries
keys (`parcel_number`, `lot_size`, `acres`, `mail_address`,
`mail_city_state_zip`, `homesteaded`) outside the `DictWriter` fieldnames;
`writerow` raises `ValueError` on the first record, the `except` returns
`""`, and the file holds only the friendly-header row — for any non-empty
record list, not one data row per record as both the spec and the function's
own `friendly_headers` intent require. -/
theorem c7_export_fails_eval :
    (exportToEnhancedCsv "out.csv" [c7Rec] = ("", [friendlyHeaders.map Prod.snd]) ∧
      "parcel_number" ∈ (eRecordDict c7Rec).map Prod.fst ∧
      "parcel_number" ∉ enhancedFieldOrder) ∧
    ∀ rs : List ERecord, (exportToEnhancedCsv "f.csv" (c7Rec :: rs)).2.length = 1 := by
  refine ⟨⟨by decide, by decide, by decide⟩, ?_⟩
  intro rs
  unfold exportToEnhancedCsv
  rw [c7_header_row]
  simp only [List.isEmpty_cons, Bool.false_eq_true, if_false]
  unfold exportLoop
  rw [c7_record_row_raises]
  rfl

/-- Witness for C7's universally quantified part, at a concrete tail. -/
theorem c7_export_witness :
    (exportToEnhancedCsv "f.csv" [c7Rec, c7Rec]).2.length = 1 :=
  c7_export_fails_eval.2 [c7Rec]

/-! ## Claim C8 -/

/-- Claim C8 (confirmed), data-table qualification: the Structure Analyzer of
the enhanced extractor counts a table among `analysis['tables']` (the tables
extraction then runs over) iff the table is in the page's table list, has at
least 2 rows, and its lower-cased aggregate text holds at least one of the
keywords property/address/owner/value/parcel/account. -/
theorem c8_data_table_qualification (t : ATable) (ts : List ATable) :
    t ∈ papaTableCandidates ts ↔
      t ∈ ts ∧ 2 ≤ t.numRows ∧
        ∃ k ∈ papaStructKeywords, containsSub (pyLower t.text) k = true := by
  simp only [papaTableCandidates, List.mem_filter, isDataTable, Bool.and_eq_true,
    decide_eq_true_eq, List.any_eq_true, and_assoc]
  constructor
  · rintro ⟨h1, h2, h3⟩
    exact ⟨h1, by omega, h3⟩
  · rintro ⟨h1, h2, h3⟩
    exact ⟨h1, by omega, h3⟩

/-! ## Claim C9 -/

/-- Formalised from the spec's words for C9 ("mapping yields fewer than 3
bound columns"): the keywords of the header-mapping chain of
`extract_from_table`, and the number of header columns bound by it. -/
def specHeaderChainKeywords : List String :=
  ["sale", "price", "date", "owner", "name", "taxpayer", "address", "location",
   "property", "municipality", "city", "sq", "sqft", "footage", "mail", "mailing",
   "homestead", "parcel", "account"]

/-- Formalised from the spec's words for C9: how many header columns the
header-based mapping can bind. -/
def specBoundColumns (tbl : HTable) : Nat :=
  match headerOf tbl with
  | some hs => (hs.filter (fun h => anyKw specHeaderChainKeywords h)).length
  | none => 0

/-- Formalised from the spec's words for C9: the extraction that results when
the position-based defaults are applied to every data row — what the spec
predicts for a table with no headers or a low-confidence header mapping. -/
def specPositionExtract (now : String) (tbl : HTable) (page : Nat) : List MRecord :=
  processRowsM none now page (if tbl.rows.length > 1 then tbl.rows.drop 1 else tbl.rows)

/-- Table used to refute C9: a header row binding zero columns, and a data
row whose second cell is date-like. -/
def c9Table : HTable :=
  ⟨[⟨[], ["aaa", "bbb", "ccc"], [], ""⟩, ⟨[], ["100", "01/02/2020", "ZZZZ"], [], ""⟩]⟩

/-- Claim C9, counterexample: `c9Table` has a header row binding 0 (< 3)
columns, so per the claim the position-based defaults should apply — they
would bind the date-like column 1 to the sale date — but the code never falls
back on a low-confidence header mapping: the extracted record's sale date
stays empty and the result differs from the position-based extraction. -/
theorem c9_position_counterexample :
    headerOf c9Table = some ["aaa", "bbb", "ccc"] ∧
      specBoundColumns c9Table < 3 ∧
      (extractFromTableM "TS" c9Table 1).map (fun r => r.sale_date) = [""] ∧
      (specPositionExtract "TS" c9Table 1).map (fun r => r.sale_date) = ["01/02/2020"] ∧
      extractFromTableM "TS" c9Table 1 ≠ specPositionExtract "TS" c9Table 1 := by
  decide

/-- Claim C9 (corrected): the position-based defaults are applied exactly
when the table's first row yields no header cells (`header_row = None`) — a
header row that binds fewer than 3 columns still uses header-based mapping
only.  Also, within the defaults, column 0 falls back to the parcel number
only when the cell contains a digit; a cell with neither currency symbol nor
digit binds nothing. -/
theorem c9_position_amended :
    ∀ (now : String) (tbl : HTable) (page : Nat),
      (headerOf tbl = none →
        extractFromTableM now tbl page = specPositionExtract now tbl page) ∧
      (∀ hs, headerOf tbl = some hs →
        extractFromTableM now tbl page =
          processRowsM (some hs) now page
            (if tbl.rows.length > 1 then tbl.rows.drop 1 else tbl.rows)) ∧
      (∀ t : String, ¬hasChar t '$' = true → ¬t.data.any Char.isDigit = true →
        positionStep 0 t blankM = blankM) := by
  intro now tbl page
  refine ⟨fun h => ?_, fun hs h => ?_, fun t h1 h2 => ?_⟩
  · unfold extractFromTableM specPositionExtract
    rw [h]
  · unfold extractFromTableM
    rw [h]
  · unfold positionStep
    split_ifs <;> simp_all

/-- Headerless table for the C9 witness (its first row has no cells). -/
def c9NoHdrTable : HTable :=
  ⟨[⟨[], [], [], ""⟩, ⟨[], ["$1", "2/2/2020", "ZZZZ"], [], ""⟩]⟩

/-- Witness for C9: on a headerless table the extraction coincides with the
position-based pipeline, and a digitless cell binds nothing at column 0. -/
theorem c9_position_witness :
    extractFromTableM "TS" c9NoHdrTable 1 = specPositionExtract "TS" c9NoHdrTable 1 ∧
      positionStep 0 "ABC" blankM = blankM :=
  ⟨(c9_position_amended "TS" c9NoHdrTable 1).1 rfl,
   (c9_position_amended "TS" c9NoHdrTable 1).2.2 "ABC" (by decide) (by decide)⟩

end RainPapa
